import Mathlib

/-!
Shallow embedding of `src/agent-runner.ts` of the add-agent repository:
the Completion Poller (`waitForAgentCompletion`), the stop predicate
(`isStopRequested`), the Event Normalizer (`handleEvent`), the Event
Stream Consumer retry loop (`streamEventsToSupabase`) and the Run
Supervisor (`runAgent`).  Machine integers are modelled as `Nat`
(timestamps, counters, counts never overflow in the modelled ranges),
fallible collaborator calls are modelled by `Option` inputs, and the
event-loop state is threaded explicitly.
-/

namespace AddAgent

/-- Constant from agent-runner.ts line 14. -/
def STATUS_POLL_INTERVAL_MS : Nat := 2000

/-- Constant from agent-runner.ts line 15. -/
def STOP_CHECK_INTERVAL_MS : Nat := 1000

/-- Constant from agent-runner.ts line 16. -/
def EVENT_STREAM_MAX_RETRIES : Nat := 5

/-- agent-runner.ts lines 49-51: backoff delay for the attempt-th retry. -/
def getRetryDelay (attempt : Nat) : Nat :=
  min (1000 * 2 ^ (attempt - 1)) 10000

/-- The `{start, end?}` timing object carried on message parts and tool
states (the source field named `end` is rendered `endTime` here). -/
structure MsgTiming where
  start : Nat
  endTime : Option Nat
deriving DecidableEq, Repr

/-- A todo item of a `todo.updated` event (agent-runner.ts lines 443-450). -/
structure TodoItem where
  id : String
  content : String
  status : String
  priority : String
deriving DecidableEq, Repr

/-- The metadata object passed to `logProgress`; the source passes a
heterogeneous JS object, rendered here as a tagged union with one shape
per call site (`empty` is the omitted / `{}` metadata). -/
inductive EntryMeta where
  | empty
  | thinking (fullText : String) (timing : Option MsgTiming)
  | toolCall (tool : String) (input : String) (output : Option String)
      (callId : String) (timing : Option MsgTiming)
  | changes (file : String) (before : String) (after : String)
      (additions : Nat) (deletions : Nat)
  | todos (items : List TodoItem)
deriving DecidableEq, Repr

/-- One persisted ProgressEntry: the `(type, message, metadata)` triple
handed to `logProgress` (the run/ticket ids are constant per run and
omitted). -/
structure Entry where
  kind : String
  message : String
  meta : EntryMeta
deriving DecidableEq, Repr

/-- The agent-run row read back by `getAgentRunStatus`: the
RunControlState `{status, error}` of the spec. -/
structure RunControl where
  status : String
  error : Option String
deriving DecidableEq, Repr

/-- agent-runner.ts lines 247-254: the stop predicate, taking the
collaborator's reply (`none` models an absent row). -/
def isStopRequested (r : Option RunControl) : Bool :=
  match r with
  | none => false
  | some st => st.status == "failed" && st.error == some "Stopped by user"

/-- One session status value as inspected by the poll loop:
`status.type` is `"idle"`, `"retry"` (with `status.message`) or anything
else (`busy tag` keeps the raw tag of any other `type`). -/
inductive SessStatus where
  | idle
  | retry (message : String)
  | busy (tag : String)
deriving DecidableEq, Repr

/-- Mutable locals of `waitForAgentCompletion` (lines 177-179). -/
structure PollState where
  statusErrorCount : Nat
  lastStopCheck : Nat
  lastRetryMessage : Option String
deriving DecidableEq, Repr

/-- The environment observed by one poll iteration: the clock value
`Date.now()`, the agent-run row `getAgentRunStatus` would return, and
the status-query reply (`none` = `statusResult.error`, `some m` = the
mapping `statusResult.data`). -/
structure PollInput where
  now : Nat
  control : Option RunControl
  query : Option (List (String × SessStatus))
deriving DecidableEq, Repr

/-- How `waitForAgentCompletion` can leave its loop: return on idle, or
one of its three throws. -/
inductive PollerOutcome where
  | completed
  | stopped
  | serverUnavailable
  | sessionLost
deriving DecidableEq, Repr

/-- Result of one loop iteration: leave with an outcome, or continue
with updated locals. -/
inductive StepResult where
  | done (o : PollerOutcome)
  | next (s : PollState)
deriving DecidableEq, Repr

/-- The `logProgress` call of the stop path (line 188). -/
def stopEntry : Entry := ⟨"action", "Stopping agent run", .empty⟩

/-- The `logProgress` call of the retry path (lines 235-240). -/
def retryEntry (message : String) : Entry :=
  ⟨"thinking", "Agent retrying: " ++ message, .empty⟩

/-- One iteration of the `while (true)` loop of
`waitForAgentCompletion` (agent-runner.ts lines 181-244), returning the
step result and the ProgressEntries it logs. -/
def pollStep (sessionId : String) (s : PollState) (inp : PollInput) :
    StepResult × List Entry :=
  let s1 : PollState :=
    if STOP_CHECK_INTERVAL_MS ≤ inp.now - s.lastStopCheck then
      { s with lastStopCheck := inp.now }
    else s
  let stopHit : Bool :=
    if STOP_CHECK_INTERVAL_MS ≤ inp.now - s.lastStopCheck then
      isStopRequested inp.control
    else false
  if stopHit then (.done .stopped, [stopEntry])
  else
    match inp.query with
    | none =>
        if s1.statusErrorCount + 1 ≥ 3 then (.done .serverUnavailable, [])
        else (.next { s1 with statusErrorCount := s1.statusErrorCount + 1 }, [])
    | some m =>
        let s2 := { s1 with statusErrorCount := 0 }
        match List.lookup sessionId m with
        | none => (.done .sessionLost, [])
        | some .idle => (.done .completed, [])
        | some (.retry msg) =>
            if some msg ≠ s2.lastRetryMessage then
              (.next { s2 with lastRetryMessage := some msg }, [retryEntry msg])
            else (.next s2, [])
        | some (.busy _) => (.next s2, [])

/-- Initial locals of `waitForAgentCompletion` (lines 177-179). -/
def initPollState : PollState := ⟨0, 0, none⟩

/-- Run the poll loop over a finite trace of iteration environments;
`none` in the first component means the trace ended with the loop still
polling. -/
def runPoll (sessionId : String) :
    PollState → List PollInput → Option PollerOutcome × List Entry
  | _, [] => (none, [])
  | s, inp :: rest =>
      match pollStep sessionId s inp with
      | (.done o, es) => (some o, es)
      | (.next s', es) =>
          let r := runPoll sessionId s' rest
          (r.1, es ++ r.2)

/-- The `state` object of a tool part (lines 346-354): the tool-call
status plus the fields read on completion.  The opaque `input` payload
is carried as a string. -/
structure ToolState where
  status : String
  input : String
  output : Option String
  title : Option String
  time : Option MsgTiming
deriving DecidableEq, Repr

/-- The `part` object of a `message.part.updated` event as read by
`handleEvent` (agent-runner.ts lines 323-374): its `type`, optional
`text`, `time`, `tool`, `callID` and tool `state`. -/
structure MsgPart where
  type : String
  text : Option String
  time : Option MsgTiming
  tool : Option String
  callID : Option String
  state : Option ToolState
deriving DecidableEq, Repr

/-- One file entry of a `session.diff` event (lines 379-387). -/
structure DiffEntry where
  file : String
  before : String
  after : String
  additions : Nat
  deletions : Nat
deriving DecidableEq, Repr

/-- A RawEvent as dispatched by `handleEvent` (lines 322-468): the
known event types with the properties each branch reads, plus an
`other` fallback for every unhandled type. -/
inductive REvent where
  | messagePartUpdated (part : Option MsgPart)
  | sessionDiff (diff : Option (List DiffEntry))
  | sessionError (sessionID : String) (error : Option String)
  | todoUpdated (sessionID : String) (todos : Option (List TodoItem))
  | other (type : String)
deriving DecidableEq, Repr

/-- The `cond ? s.slice(0, cap) + suffix : s` truncation pattern used at
lines 338-339 (cap 100), 357-360 (cap 2000) and 398-406 (cap 5000).
A JS falsy guard `s && ...` only changes the result for `s = ""`, whose
length is 0 anyway, so the length test alone is faithful. -/
def truncateAt (cap : Nat) (suffix : String) (s : String) : String :=
  if s.length > cap then s.take cap ++ suffix else s

/-- Line 392: the dedup key `file + ":" + (after || "").slice(0, 100)`. -/
def diffKeyOf (d : DiffEntry) : String :=
  d.file ++ ":" ++ d.after.take 100

/-- The ProgressEntry logged for one fresh diff entry (lines 409-421). -/
def changesEntry (d : DiffEntry) : Entry :=
  ⟨"session_changes",
    d.file ++ " (+" ++ toString d.additions ++ "/-" ++ toString d.deletions ++ ")",
    .changes d.file (truncateAt 5000 "\n... (truncated)" d.before)
      (truncateAt 5000 "\n... (truncated)" d.after) d.additions d.deletions⟩

/-- The reasoning branch of `message.part.updated` (lines 331-343). -/
def reasoningEntries (p : MsgPart) : List Entry :=
  if p.type == "reasoning" then
    let text := p.text.getD ""
    if text.trim ≠ "" then
      [⟨"thinking",
        if text.length > 100 then text.take 100 ++ "..." else text,
        .thinking text p.time⟩]
    else []
  else []

/-- The tool branch of `message.part.updated` (lines 346-369). -/
def toolEntries (p : MsgPart) : List Entry :=
  match p.state with
  | none => []
  | some st =>
      if p.type == "tool" && st.status == "completed" then
        let tool := p.tool.getD ""
        let title := st.title.getD ""
        [⟨"tool_call", if title ≠ "" then title else tool,
          .toolCall tool st.input
            (st.output.map (truncateAt 2000 "\n... (truncated)"))
            (p.callID.getD "") st.time⟩]
      else []

/-- The `session.diff` loop (lines 390-422): walk the file entries,
skipping keys already in `loggedDiffKeys` and adding fresh keys, and
log one changes entry per fresh key. -/
def processDiffs (keys : List String) : List DiffEntry → List String × List Entry
  | [] => (keys, [])
  | d :: rest =>
      if diffKeyOf d ∈ keys then processDiffs keys rest
      else
        let r := processDiffs (diffKeyOf d :: keys) rest
        (r.1, changesEntry d :: r.2)

/-- The `todo.updated` branch (lines 439-467). -/
def todoEntries (sessionId : String) (sid : String)
    (todos : Option (List TodoItem)) : List Entry :=
  if sid != sessionId then []
  else
    match todos with
    | none => []
    | some ts =>
        if ts.length > 0 then
          let completed := (ts.filter (fun t => t.status == "completed")).length
          let inProgress := (ts.filter (fun t => t.status == "in_progress")).length
          [⟨"todo_update",
            "Todos: " ++ toString completed ++ "/" ++ toString ts.length ++
              " complete" ++
              (if inProgress > 0 then
                ", " ++ toString inProgress ++ " in progress" else ""),
            .todos ts⟩]
        else []

/-- `handleEvent` (agent-runner.ts lines 313-469) as a pure function of
the event, the active session id and the `loggedDiffKeys` set (rendered
as a list), returning the updated set and the entries logged. -/
def handleEvent (ev : REvent) (sessionId : String) (keys : List String) :
    List String × List Entry :=
  match ev with
  | .messagePartUpdated none => (keys, [])
  | .messagePartUpdated (some p) => (keys, reasoningEntries p ++ toolEntries p)
  | .sessionDiff none => (keys, [])
  | .sessionDiff (some ds) => processDiffs keys ds
  | .sessionError sid err =>
      if sid == sessionId then
        (keys, [⟨"error", err.getD "Unknown error", .empty⟩])
      else (keys, [])
  | .todoUpdated sid todos => (keys, todoEntries sessionId sid todos)
  | .other _ => (keys, [])

/-- Drive a list of events through `handleEvent`, threading the dedup
set and concatenating the entries in observation order. -/
def processEvents (sessionId : String) :
    List String → List REvent → List String × List Entry
  | keys, [] => (keys, [])
  | keys, ev :: rest =>
      let r1 := handleEvent ev sessionId keys
      let r2 := processEvents sessionId r1.1 rest
      (r2.1, r1.2 ++ r2.2)

/-- Outcome of one `client.event.subscribe` call as seen by the
Consumer loop: the open itself throws, or the stream yields some events
and then either ends normally or throws mid-stream. -/
inductive ConnResult where
  | openFail
  | streamEnd (evs : List REvent)
  | streamFail (evs : List REvent)
deriving DecidableEq, Repr

/-- Observable behaviour of one Consumer execution: how many subscribe
calls it made, the events it handled in order, the backoff delays it
slept, and whether it ended by exhausting the retry ceiling (it returns
silently in that case too; the model has no error outcome because the
source catches everything). -/
structure ConsumerTrace where
  opens : Nat
  handled : List REvent
  delays : List Nat
  exhausted : Bool
deriving DecidableEq, Repr

/-- The retry loop of `streamEventsToSupabase` (agent-runner.ts lines
270-310) over a finite trace of subscribe outcomes, for an execution on
which the abort signal is never raised (the modelled claims concern the
pre-cancellation behaviour).  `attempt` is the mutable counter of line
270; note the source never resets it. -/
def consume : Nat → List ConnResult → ConsumerTrace
  | _, [] => ⟨0, [], [], false⟩
  | attempt, c :: rest =>
      if attempt ≤ EVENT_STREAM_MAX_RETRIES then
        match c with
        | .streamEnd evs => ⟨1, evs, [], false⟩
        | .openFail =>
            let a := attempt + 1
            if a ≥ EVENT_STREAM_MAX_RETRIES then ⟨1, [], [], true⟩
            else
              let t := consume a rest
              ⟨t.opens + 1, t.handled, getRetryDelay a :: t.delays, t.exhausted⟩
        | .streamFail evs =>
            let a := attempt + 1
            if a ≥ EVENT_STREAM_MAX_RETRIES then ⟨1, evs, [], true⟩
            else
              let t := consume a rest
              ⟨t.opens + 1, evs ++ t.handled, getRetryDelay a :: t.delays,
                t.exhausted⟩
      else ⟨0, [], [], false⟩

/-- The Supervisor environment: whether `session.create` and
`session.promptAsync` return without error, and the outcome the Poller
eventually produces. -/
structure SupervisorEnv where
  sessionCreated : Bool
  promptAccepted : Bool
  pollerOutcome : PollerOutcome
deriving DecidableEq, Repr

/-- What the `try` block of `runAgent` (agent-runner.ts lines 89-147)
does before the `finally`: whether `client.session.delete` was called,
and the error it throws if any. -/
structure BodyResult where
  sessionDeleted : Bool
  thrown : Option String
deriving DecidableEq, Repr

/-- The `try` body of `runAgent`: create session (throw on error),
start the Consumer, submit the prompt (throw on error), run the Poller
(its throws propagate), and only then delete the session. -/
def runAgentBody (env : SupervisorEnv) : BodyResult :=
  if !env.sessionCreated then ⟨false, some "Failed to create session"⟩
  else if !env.promptAccepted then ⟨false, some "Failed to send prompt"⟩
  else
    match env.pollerOutcome with
    | .completed => ⟨true, none⟩
    | .stopped => ⟨false, some "Stopped by user"⟩
    | .serverUnavailable =>
        ⟨false, some "OpenCode server unavailable while checking session status"⟩
    | .sessionLost =>
        ⟨false, some "OpenCode server returned no status for active session"⟩

/-- Observable teardown behaviour of one `runAgent` call. -/
structure SupervisorTrace where
  abortRaised : Nat
  serverClosed : Bool
  sessionDeleted : Bool
  thrown : Option String
deriving DecidableEq, Repr

/-- `runAgent` (agent-runner.ts lines 53-153): the `finally` block (lines
148-152) raises the Consumer abort signal once and closes the server,
unconditionally on the body's result. -/
def runAgentModel (env : SupervisorEnv) : SupervisorTrace :=
  let b := runAgentBody env
  ⟨1, true, b.sessionDeleted, b.thrown⟩

/-- Spec-level view of an event trace: the diff file entries it carries,
in order (the concatenation of the `session.diff` batches). -/
def diffsOf : REvent → List DiffEntry
  | .sessionDiff (some ds) => ds
  | _ => []

/-- All diff file entries of an event trace, in observation order. -/
def streamDiffs : List REvent → List DiffEntry
  | [] => []
  | ev :: rest => diffsOf ev ++ streamDiffs rest

/-- The dedup keys of an event trace, in observation order. -/
def streamKeys (evs : List REvent) : List String :=
  (streamDiffs evs).map diffKeyOf

/-- Fold a burst of dedup keys into the dedup set, adding only fresh
keys (the effect of the diff loop on `loggedDiffKeys`). -/
def addFresh : List String → List String → List String
  | K, [] => K
  | K, k :: ks => if k ∈ K then addFresh K ks else addFresh (k :: K) ks

/-- The diff entries that survive deduplication against an initial key
set: the first entry of each dedup key is kept, later ones dropped. -/
def freshDiffs : List DiffEntry → List String → List DiffEntry
  | [], _ => []
  | d :: ds, K =>
      if diffKeyOf d ∈ K then freshDiffs ds K
      else d :: freshDiffs ds (diffKeyOf d :: K)

/-- Projection of the changes-kind entries of a log. -/
def changesOnly (es : List Entry) : List Entry :=
  es.filter (fun e => e.kind == "session_changes")

/-- The file path recorded in a changes-kind entry's metadata. -/
def entryFile : EntryMeta → Option String
  | .changes f _ _ _ _ => some f
  | _ => none

/-- The event trace of the C2 counterexample: the diff pair
`("a:x", after "hello")` occurs twice, after a pair whose string dedup
key collides with it because the first file path contains a colon. -/
def c2Events : List REvent :=
  [.sessionDiff (some [⟨"a", "", "x:hello", 1, 1⟩]),
   .sessionDiff (some [⟨"a:x", "", "hello", 1, 1⟩]),
   .sessionDiff (some [⟨"a:x", "", "hello", 1, 1⟩])]

/-- C1: in a poll iteration whose stop-check interval has elapsed (as it
has in every iteration of a real trace, since every path back to the
loop head sleeps at least `STOP_CHECK_INTERVAL_MS`), a RunControlState
already signalling "Stopped by user" makes the iteration exit with the
`stopped` outcome even when the status query would report `idle`:
the stop-check runs before the status query is inspected. -/
theorem c1_stop_wins_over_idle (sessionId : String) (s : PollState)
    (inp : PollInput) (m : List (String × SessStatus))
    (hgate : STOP_CHECK_INTERVAL_MS ≤ inp.now - s.lastStopCheck)
    (hstop : isStopRequested inp.control = true)
    (hq : inp.query = some m)
    (hidle : List.lookup sessionId m = some .idle) :
    pollStep sessionId s inp = (.done .stopped, [stopEntry]) := by
  simp [pollStep, hgate, hstop]

/-- C1 witness: a concrete iteration with the stop already requested and
the status query returning idle ends stopped. -/
theorem c1_witness :
    STOP_CHECK_INTERVAL_MS ≤ (5000 : Nat) - initPollState.lastStopCheck ∧
    isStopRequested (some ⟨"failed", some "Stopped by user"⟩) = true ∧
    pollStep "s" initPollState
      ⟨5000, some ⟨"failed", some "Stopped by user"⟩, some [("s", .idle)]⟩
      = (.done .stopped, [stopEntry]) :=
  ⟨by decide, by decide,
    c1_stop_wins_over_idle "s" initPollState
      ⟨5000, some ⟨"failed", some "Stopped by user"⟩, some [("s", .idle)]⟩
      [("s", .idle)] (by decide) (by decide) rfl (by decide)⟩

/-- C7: a successful status query whose mapping has no entry for the
active session exits that very iteration with the `sessionLost` fatal
outcome; it is never treated as still running. -/
theorem c7_missing_status_is_fatal (sessionId : String) (s : PollState)
    (inp : PollInput) (m : List (String × SessStatus))
    (hstop : isStopRequested inp.control = false)
    (hq : inp.query = some m)
    (hmiss : List.lookup sessionId m = none) :
    pollStep sessionId s inp = (.done .sessionLost, []) := by
  simp [pollStep, hq, hmiss, hstop]

/-- C7 witness: a concrete iteration with an empty status mapping ends
with the sessionLost outcome. -/
theorem c7_witness :
    isStopRequested none = false ∧
    pollStep "s" initPollState ⟨0, none, some []⟩ = (.done .sessionLost, []) :=
  ⟨by decide,
    c7_missing_status_is_fatal "s" initPollState ⟨0, none, some []⟩ []
      (by decide) rfl rfl⟩

/-- C10: cancellation is requested exactly when the control record is
present with status "failed" and error "Stopped by user"; an absent
record, or a failed status with any other error string, is not-stopped
and the iteration goes on to the status query and continues polling. -/
theorem c10_stop_predicate :
    (isStopRequested none = false) ∧
    (∀ (st : String) (e : Option String),
        isStopRequested (some ⟨st, e⟩) = true ↔
          st = "failed" ∧ e = some "Stopped by user") ∧
    (∀ (sessionId : String) (s : PollState) (n : Nat) (tag : String),
        pollStep sessionId s ⟨n, none, some [(sessionId, .busy tag)]⟩
          = (.next ⟨0,
              if STOP_CHECK_INTERVAL_MS ≤ n - s.lastStopCheck then n
              else s.lastStopCheck, s.lastRetryMessage⟩, [])) ∧
    (∀ (sessionId : String) (s : PollState) (n : Nat) (e : Option String)
        (tag : String), e ≠ some "Stopped by user" →
        pollStep sessionId s ⟨n, some ⟨"failed", e⟩, some [(sessionId, .busy tag)]⟩
          = (.next ⟨0,
              if STOP_CHECK_INTERVAL_MS ≤ n - s.lastStopCheck then n
              else s.lastStopCheck, s.lastRetryMessage⟩, [])) := by
  refine ⟨rfl, ?_, ?_, ?_⟩
  · intro st e
    simp [isStopRequested]
  · intro sessionId s n tag
    simp only [pollStep, isStopRequested, List.lookup, beq_self_eq_true]
    split <;> simp
  · intro sessionId s n e tag he
    have hne : (e == some "Stopped by user") = false := by
      simpa using he
    simp only [pollStep, isStopRequested, List.lookup, beq_self_eq_true, hne,
      Bool.and_false]
    split <;> simp

/-- C10 witness: a failed control record with a different error string
leaves the loop polling. -/
theorem c10_witness :
    pollStep "s" ⟨0, 0, none⟩
      ⟨2000, some ⟨"failed", some "boom"⟩, some [("s", .busy "running")]⟩
      = (.next ⟨0, 2000, none⟩, []) := by
  have h := c10_stop_predicate.2.2.2 "s" ⟨0, 0, none⟩ 2000 (some "boom")
    "running" (by decide)
  simpa using h

/-- C8: a `message.part.updated` event with a reasoning part emits no
entry when the text is blank, and otherwise exactly one thinking-kind
entry whose message is the text itself when at most 100 characters and
its first 100 characters plus an ellipsis when longer, the metadata
carrying the untruncated text and the timing pair. -/
theorem c8_reasoning_normalization (sessionId : String) (K : List String)
    (txt : Option String) (tm : Option MsgTiming) (tool cid : Option String)
    (st : Option ToolState) :
    handleEvent (.messagePartUpdated (some ⟨"reasoning", txt, tm, tool, cid, st⟩))
        sessionId K
      = (K,
        if (txt.getD "").trim ≠ "" then
          [⟨"thinking",
            if (txt.getD "").length > 100 then (txt.getD "").take 100 ++ "..."
            else txt.getD "",
            .thinking (txt.getD "") tm⟩]
        else []) := by
  cases st <;> simp [handleEvent, reasoningEntries, toolEntries]

/-- C9: a diff file entry whose dedup key is fresh emits one changes
entry with message "file (+additions, minus deletions)" joined by a
slash as in the source, and metadata
carrying the before/after content truncated at 5000 characters with a
truncation suffix, plus the addition and deletion counts. -/
theorem c9_changes_normalization (sessionId : String) (K : List String)
    (d : DiffEntry) (hfresh : diffKeyOf d ∉ K) :
    handleEvent (.sessionDiff (some [d])) sessionId K
      = (diffKeyOf d :: K,
        [⟨"session_changes",
          d.file ++ " (+" ++ toString d.additions ++ "/-" ++
            toString d.deletions ++ ")",
          .changes d.file (truncateAt 5000 "\n... (truncated)" d.before)
            (truncateAt 5000 "\n... (truncated)" d.after)
            d.additions d.deletions⟩]) := by
  simp [handleEvent, processDiffs, hfresh, changesEntry]

set_option maxRecDepth 4096 in
/-- C9 witness: the spec's end-to-end example, a diff for src/app.go
with 3 additions and 1 deletion. -/
theorem c9_witness :
    handleEvent (.sessionDiff (some [⟨"src/app.go", "", "pkg", 3, 1⟩])) "s" []
      = (["src/app.go:pkg"],
        [⟨"session_changes", "src/app.go (+3/-1)",
          .changes "src/app.go" "" "pkg" 3 1⟩]) := by
  have h := c9_changes_normalization "s" [] ⟨"src/app.go", "", "pkg", 3, 1⟩
    (by simp)
  rw [h]
  rfl

/-- A retry status whose message matches the last reported one emits
nothing, over a whole streak. -/
lemma runPoll_retry_steady (sessionId m : String) :
    ∀ (n : Nat) (s : PollState), s.lastRetryMessage = some m →
      runPoll sessionId s
        (List.replicate n ⟨0, none, some [(sessionId, .retry m)]⟩)
        = (none, []) := by
  intro n
  induction n with
  | zero => intro s _; simp [runPoll]
  | succ n ih =>
      intro s h
      have hstep : pollStep sessionId s ⟨0, none, some [(sessionId, .retry m)]⟩
          = (.next ⟨0, s.lastStopCheck, some m⟩, []) := by
        simp [pollStep, isStopRequested, List.lookup, h, STOP_CHECK_INTERVAL_MS]
      simp only [List.replicate_succ, runPoll, hstep]
      rw [ih ⟨0, s.lastStopCheck, some m⟩ rfl]
      rfl

/-- C3: a retry-status streak with an unchanged message emits exactly
one thinking entry for the whole streak; an unchanged message emits
nothing, and a changed message always emits a new entry and records
itself as the last reported message. -/
theorem c3_retry_dedup :
    (∀ (sessionId m : String) (n : Nat),
        runPoll sessionId initPollState
          (List.replicate (n + 1) ⟨0, none, some [(sessionId, .retry m)]⟩)
          = (none, [retryEntry m])) ∧
    (∀ (sessionId m : String) (s : PollState), some m ≠ s.lastRetryMessage →
        pollStep sessionId s ⟨0, none, some [(sessionId, .retry m)]⟩
          = (.next ⟨0, s.lastStopCheck, some m⟩, [retryEntry m])) ∧
    (∀ (sessionId m : String) (s : PollState), s.lastRetryMessage = some m →
        pollStep sessionId s ⟨0, none, some [(sessionId, .retry m)]⟩
          = (.next ⟨0, s.lastStopCheck, some m⟩, [])) := by
  refine ⟨?_, ?_, ?_⟩
  · intro sessionId m n
    have hstep : pollStep sessionId initPollState
        ⟨0, none, some [(sessionId, .retry m)]⟩
        = (.next ⟨0, 0, some m⟩, [retryEntry m]) := by
      simp [pollStep, isStopRequested, List.lookup, initPollState,
        STOP_CHECK_INTERVAL_MS]
    simp only [List.replicate_succ, runPoll, hstep]
    rw [runPoll_retry_steady sessionId m n ⟨0, 0, some m⟩ rfl]
    rfl
  · intro sessionId m s hne
    simp [pollStep, isStopRequested, List.lookup, hne, STOP_CHECK_INTERVAL_MS]
  · intro sessionId m s h
    simp [pollStep, isStopRequested, List.lookup, h, STOP_CHECK_INTERVAL_MS]

/-- C3 witness: a three-iteration streak of one retry message emits one
entry; a changed message emits; an unchanged one does not. -/
theorem c3_witness :
    runPoll "s" initPollState
      (List.replicate 3 ⟨0, none, some [("s", .retry "rate limited")]⟩)
      = (none, [retryEntry "rate limited"]) ∧
    pollStep "s" ⟨0, 0, some "a"⟩ ⟨0, none, some [("s", .retry "b")]⟩
      = (.next ⟨0, 0, some "b"⟩, [retryEntry "b"]) ∧
    pollStep "s" ⟨0, 0, some "a"⟩ ⟨0, none, some [("s", .retry "a")]⟩
      = (.next ⟨0, 0, some "a"⟩, []) :=
  ⟨c3_retry_dedup.1 "s" "rate limited" 2,
    c3_retry_dedup.2.1 "s" "b" ⟨0, 0, some "a"⟩ (by decide),
    c3_retry_dedup.2.2 "s" "a" ⟨0, 0, some "a"⟩ rfl⟩

/-- A failed status query below the ceiling increments the error count
and continues. -/
lemma pollStep_queryError_low (sessionId : String) (s : PollState)
    (inp : PollInput) (hstop : isStopRequested inp.control = false)
    (hq : inp.query = none) (hlow : ¬ s.statusErrorCount + 1 ≥ 3) :
    ∃ lsc, pollStep sessionId s inp
      = (.next ⟨s.statusErrorCount + 1, lsc, s.lastRetryMessage⟩, []) := by
  refine ⟨if STOP_CHECK_INTERVAL_MS ≤ inp.now - s.lastStopCheck then inp.now
    else s.lastStopCheck, ?_⟩
  simp only [pollStep, hq, hstop]
  split <;> simp [hlow]

/-- The third consecutive failed status query exits fatally. -/
lemma pollStep_queryError_third (sessionId : String) (s : PollState)
    (inp : PollInput) (hstop : isStopRequested inp.control = false)
    (hq : inp.query = none) (hhigh : s.statusErrorCount + 1 ≥ 3) :
    pollStep sessionId s inp = (.done .serverUnavailable, []) := by
  simp only [pollStep, hq, hstop]
  split <;> simp [hhigh]

/-- A retry status continues with the error counter reset to zero. -/
lemma pollStep_retryStatus (sessionId : String) (s : PollState) (inp : PollInput)
    (m : List (String × SessStatus)) (msg : String)
    (hstop : isStopRequested inp.control = false)
    (hq : inp.query = some m)
    (hl : List.lookup sessionId m = some (.retry msg)) :
    ∃ lsc lrm es, pollStep sessionId s inp = (.next ⟨0, lsc, lrm⟩, es) := by
  simp only [pollStep, hq, hstop, hl, ite_self, Bool.false_eq_true, if_false]
  split <;> split <;> exact ⟨_, _, _, rfl⟩

/-- Any other non-idle status continues with the error counter reset to
zero. -/
lemma pollStep_busyStatus (sessionId : String) (s : PollState) (inp : PollInput)
    (m : List (String × SessStatus)) (tag : String)
    (hstop : isStopRequested inp.control = false)
    (hq : inp.query = some m)
    (hl : List.lookup sessionId m = some (.busy tag)) :
    ∃ lsc lrm, pollStep sessionId s inp = (.next ⟨0, lsc, lrm⟩, []) := by
  simp only [pollStep, hq, hstop, hl, ite_self, Bool.false_eq_true, if_false]
  split <;> exact ⟨_, _, rfl⟩

/-- C4: starting from a fresh poll loop, the third consecutive status
query failure exits with the `serverUnavailable` fatal outcome, whatever
inputs would have followed (no fourth query is attempted); and any
successful status query resets the consecutive-error counter to zero. -/
theorem c4_status_error_ceiling :
    (∀ (sessionId : String) (i1 i2 i3 : PollInput) (rest : List PollInput),
        isStopRequested i1.control = false → i1.query = none →
        isStopRequested i2.control = false → i2.query = none →
        isStopRequested i3.control = false → i3.query = none →
        runPoll sessionId initPollState (i1 :: i2 :: i3 :: rest)
          = (some .serverUnavailable, [])) ∧
    (∀ (sessionId : String) (s : PollState) (inp : PollInput)
        (m : List (String × SessStatus)) (s' : PollState) (es : List Entry),
        isStopRequested inp.control = false → inp.query = some m →
        pollStep sessionId s inp = (.next s', es) →
        s'.statusErrorCount = 0) := by
  constructor
  · intro sessionId i1 i2 i3 rest h1s h1q h2s h2q h3s h3q
    obtain ⟨l1, e1⟩ := pollStep_queryError_low sessionId initPollState i1 h1s
      h1q (by norm_num [initPollState])
    obtain ⟨l2, e2⟩ := pollStep_queryError_low sessionId ⟨0 + 1, l1, none⟩ i2
      h2s h2q (by norm_num)
    have e3 := pollStep_queryError_third sessionId ⟨0 + 1 + 1, l2, none⟩ i3 h3s
      h3q (by norm_num)
    simp [initPollState] at e1 e2 e3
    simp [runPoll, initPollState, e1, e2, e3]
  · intro sessionId s inp m s' es hstop hq hstep
    rcases hl : List.lookup sessionId m with _ | st
    · have hdone : pollStep sessionId s inp = (.done .sessionLost, []) := by
        simp [pollStep, hq, hstop, hl]
      rw [hdone] at hstep
      simp at hstep
    · cases st with
      | idle =>
          have hdone : pollStep sessionId s inp = (.done .completed, []) := by
            simp [pollStep, hq, hstop, hl]
          rw [hdone] at hstep
          simp at hstep
      | retry msg =>
          obtain ⟨lsc, lrm, es0, h⟩ :=
            pollStep_retryStatus sessionId s inp m msg hstop hq hl
          rw [h] at hstep
          simp only [Prod.mk.injEq, StepResult.next.injEq] at hstep
          rw [← hstep.1]
      | busy tag =>
          obtain ⟨lsc, lrm, h⟩ :=
            pollStep_busyStatus sessionId s inp m tag hstop hq hl
          rw [h] at hstep
          simp only [Prod.mk.injEq, StepResult.next.injEq] at hstep
          rw [← hstep.1]

/-- C4 witness: three consecutive query failures from a fresh loop end
in serverUnavailable, and a concrete successful query resets the
counter from 2 to 0. -/
theorem c4_witness :
    runPoll "s" initPollState
      [⟨5000, none, none⟩, ⟨5000, none, none⟩, ⟨5000, none, none⟩]
      = (some .serverUnavailable, []) ∧
    (⟨0, 0, none⟩ : PollState).statusErrorCount = 0 :=
  ⟨c4_status_error_ceiling.1 "s" ⟨5000, none, none⟩ ⟨5000, none, none⟩
      ⟨5000, none, none⟩ [] (by decide) rfl (by decide) rfl (by decide) rfl,
    c4_status_error_ceiling.2 "s" ⟨2, 0, none⟩
      ⟨0, none, some [("s", .busy "running")]⟩ [("s", .busy "running")]
      ⟨0, 0, none⟩ [] (by decide) rfl (by decide)⟩

/-- C5 counterexample: after four open failures, one successful open
that streams an event and then disconnects is the fifth lifetime
failure, so the Consumer stops silently instead of resetting the
attempt counter and reconnecting — the event of the following
connection is never delivered (on the claim's reset semantics the
mid-stream failure would have been attempt 1 and a sixth open would
deliver it). -/
theorem c5_counterexample :
    consume 0 [.openFail, .openFail, .openFail, .openFail,
        .streamFail [.other "during-stream"], .streamEnd [.other "after-reset"]]
      = ⟨5, [.other "during-stream"], [1000, 2000, 4000, 8000], true⟩ := by
  rfl

/-- C5 amended: the Consumer retries feed failures with backoff delays
min(1000·2^(attempt−1), 10000); the attempt counter is never reset — it
accumulates over the Consumer's lifetime — and the fifth lifetime
failure ends the Consumer silently, attempting no further open.  Four
open failures followed by a successful open perform exactly 4
reconnects with the capped non-decreasing delays and resume delivery. -/
theorem c5_consumer_retry :
    (∀ evs : List REvent,
        consume 0 (List.replicate 4 .openFail ++ [.streamEnd evs])
          = ⟨5, evs, [1000, 2000, 4000, 8000], false⟩) ∧
    (∀ rest : List ConnResult,
        consume 0 (.openFail :: .openFail :: .openFail :: .openFail ::
            .openFail :: rest)
          = ⟨5, [], [1000, 2000, 4000, 8000], true⟩) ∧
    (∀ evs evs2 : List REvent,
        consume 2 [.streamFail evs, .streamEnd evs2]
          = ⟨2, evs ++ evs2, [4000], false⟩) ∧
    (∀ a : Nat, getRetryDelay a = min (1000 * 2 ^ (a - 1)) 10000) :=
  ⟨fun _ => rfl, fun _ => rfl, fun _ _ => rfl, fun _ => rfl⟩

/-- C6 counterexample: on the cancellation outcome the session is not
deleted — `session.delete` sits inside the `try` block after the poll
loop, so any Poller throw skips it; only the stream abort and the
server close run. -/
theorem c6_counterexample :
    runAgentModel ⟨true, true, .stopped⟩
      = ⟨1, true, false, some "Stopped by user"⟩ := rfl

/-- C6 amended: on every exit path — normal completion, session-create
failure, prompt-submission failure, Poller fatal error, cancellation —
the Consumer's cancellation signal is raised exactly once and the
server is stopped; the session delete, however, runs exactly on the
Completed outcome. -/
theorem c6_teardown_on_all_paths (env : SupervisorEnv) :
    (runAgentModel env).abortRaised = 1 ∧
    (runAgentModel env).serverClosed = true ∧
    ((runAgentModel env).sessionDeleted = true ↔
      env.sessionCreated = true ∧ env.promptAccepted = true ∧
        env.pollerOutcome = .completed) := by
  obtain ⟨sc, pa, po⟩ := env
  cases sc <;> cases pa <;> cases po <;>
    simp [runAgentModel, runAgentBody]

lemma changesOnly_append (a b : List Entry) :
    changesOnly (a ++ b) = changesOnly a ++ changesOnly b := by
  simp [changesOnly]

lemma changesOnly_map_changesEntry (ds : List DiffEntry) :
    changesOnly (ds.map changesEntry) = ds.map changesEntry := by
  induction ds with
  | nil => rfl
  | cons d ds ih =>
      simp only [List.map_cons, changesOnly, List.filter_cons]
      simp only [changesOnly] at ih
      simp [changesEntry, ih]

lemma changesOnly_reasoning (p : MsgPart) :
    changesOnly (reasoningEntries p) = [] := by
  unfold reasoningEntries
  split
  · dsimp only
    split <;> simp [changesOnly]
  · simp [changesOnly]

lemma changesOnly_tool (p : MsgPart) : changesOnly (toolEntries p) = [] := by
  rcases hs : p.state with _ | st
  · simp [toolEntries, hs, changesOnly]
  · simp only [toolEntries, hs]
    split <;> simp [changesOnly]

lemma changesOnly_todo (sessionId sid : String)
    (todos : Option (List TodoItem)) :
    changesOnly (todoEntries sessionId sid todos) = [] := by
  unfold todoEntries
  split
  · simp [changesOnly]
  · rcases todos with _ | ts
    · simp [changesOnly]
    · split <;> simp [changesOnly]

lemma processDiffs_spec (ds : List DiffEntry) : ∀ K : List String,
    (processDiffs K ds).2 = (freshDiffs ds K).map changesEntry ∧
    (processDiffs K ds).1 = addFresh K (ds.map diffKeyOf) := by
  induction ds with
  | nil => intro K; simp [processDiffs, freshDiffs, addFresh]
  | cons d ds ih =>
      intro K
      by_cases h : diffKeyOf d ∈ K
      · simp [processDiffs, freshDiffs, addFresh, h, ih K]
      · simp [processDiffs, freshDiffs, addFresh, h, ih (diffKeyOf d :: K)]

lemma addFresh_append (xs : List String) :
    ∀ (ys K : List String),
      addFresh K (xs ++ ys) = addFresh (addFresh K xs) ys := by
  induction xs with
  | nil => intro ys K; rfl
  | cons x xs ih =>
      intro ys K
      by_cases h : x ∈ K <;> simp [addFresh, h, ih]

lemma freshDiffs_append (xs : List DiffEntry) :
    ∀ (ys : List DiffEntry) (K : List String),
      freshDiffs (xs ++ ys) K
        = freshDiffs xs K ++ freshDiffs ys (addFresh K (xs.map diffKeyOf)) := by
  induction xs with
  | nil => intro ys K; simp [freshDiffs, addFresh]
  | cons x xs ih =>
      intro ys K
      by_cases h : diffKeyOf x ∈ K <;> simp [freshDiffs, addFresh, h, ih]

lemma streamKeys_cons (ev : REvent) (evs : List REvent) :
    streamKeys (ev :: evs) = (diffsOf ev).map diffKeyOf ++ streamKeys evs := by
  simp [streamKeys, streamDiffs]

lemma handleEvent_changes (ev : REvent) (sessionId : String) (K : List String) :
    changesOnly (handleEvent ev sessionId K).2
        = (freshDiffs (diffsOf ev) K).map changesEntry ∧
    (handleEvent ev sessionId K).1 = addFresh K ((diffsOf ev).map diffKeyOf) := by
  cases ev with
  | messagePartUpdated p =>
      rcases p with _ | p
      · simp [handleEvent, diffsOf, freshDiffs, addFresh, changesOnly]
      · refine ⟨?_, by simp [handleEvent, diffsOf, addFresh]⟩
        show changesOnly (reasoningEntries p ++ toolEntries p) = _
        rw [changesOnly_append, changesOnly_reasoning, changesOnly_tool]
        simp [diffsOf, freshDiffs]
  | sessionDiff d =>
      rcases d with _ | ds
      · simp [handleEvent, diffsOf, freshDiffs, addFresh, changesOnly]
      · have h := processDiffs_spec ds K
        constructor
        · show changesOnly (processDiffs K ds).2 = _
          rw [h.1]
          exact changesOnly_map_changesEntry _
        · exact h.2
  | sessionError sid err =>
      simp only [handleEvent]
      split <;> simp [diffsOf, freshDiffs, addFresh, changesOnly]
  | todoUpdated sid todos =>
      exact ⟨by
        show changesOnly (todoEntries sessionId sid todos) = _
        rw [changesOnly_todo]
        simp [diffsOf, freshDiffs],
        by simp [handleEvent, diffsOf, addFresh]⟩
  | other t => simp [handleEvent, diffsOf, freshDiffs, addFresh, changesOnly]

lemma processEvents_changes (evs : List REvent) :
    ∀ (sessionId : String) (K : List String),
      changesOnly (processEvents sessionId K evs).2
          = (freshDiffs (streamDiffs evs) K).map changesEntry ∧
      (processEvents sessionId K evs).1 = addFresh K (streamKeys evs) := by
  induction evs with
  | nil =>
      intro sid K
      simp [processEvents, streamDiffs, streamKeys, freshDiffs, addFresh,
        changesOnly]
  | cons ev evs ih =>
      intro sid K
      obtain ⟨he1, he2⟩ := handleEvent_changes ev sid K
      obtain ⟨ih1, ih2⟩ := ih sid (handleEvent ev sid K).1
      constructor
      · show changesOnly ((handleEvent ev sid K).2 ++
            (processEvents sid (handleEvent ev sid K).1 evs).2) = _
        rw [changesOnly_append, he1, ih1, he2,
          show streamDiffs (ev :: evs) = diffsOf ev ++ streamDiffs evs from rfl,
          freshDiffs_append]
        simp
      · show (processEvents sid (handleEvent ev sid K).1 evs).1 = _
        rw [ih2, he2, streamKeys_cons, addFresh_append]

lemma freshDiffs_keys_spec (ds : List DiffEntry) : ∀ K : List String,
    ((freshDiffs ds K).map diffKeyOf).Nodup ∧
    (∀ k, k ∈ (freshDiffs ds K).map diffKeyOf ↔
      k ∈ ds.map diffKeyOf ∧ k ∉ K) := by
  induction ds with
  | nil => intro K; simp [freshDiffs]
  | cons d ds ih =>
      intro K
      by_cases h : diffKeyOf d ∈ K
      · obtain ⟨ihn, ihm⟩ := ih K
        have hskip : freshDiffs (d :: ds) K = freshDiffs ds K := by
          simp [freshDiffs, h]
        refine ⟨by rw [hskip]; exact ihn, ?_⟩
        intro k
        rw [hskip, ihm k]
        simp only [List.map_cons, List.mem_cons]
        constructor
        · rintro ⟨hk, hnk⟩; exact ⟨Or.inr hk, hnk⟩
        · rintro ⟨hk | hk, hnk⟩
          · exact absurd (hk ▸ h) hnk
          · exact ⟨hk, hnk⟩
      · obtain ⟨ihn, ihm⟩ := ih (diffKeyOf d :: K)
        have hmap : (freshDiffs (d :: ds) K).map diffKeyOf
            = diffKeyOf d :: (freshDiffs ds (diffKeyOf d :: K)).map diffKeyOf := by
          simp [freshDiffs, h]
        constructor
        · rw [hmap]
          refine List.nodup_cons.mpr ⟨?_, ihn⟩
          intro hmem
          exact ((ihm _).mp hmem).2 (List.mem_cons_self _ _)
        · intro k
          rw [hmap]
          simp only [List.mem_cons, ihm k, List.map_cons]
          by_cases hk : k = diffKeyOf d <;> simp [hk, h, List.mem_cons]

/-- C2 amended: within one run (the dedup set starting empty), the
changes-kind entries persisted for an event trace are exactly one per
fresh diff entry, their string dedup keys `file ++ ":" ++ take 100 of
the after-content` are pairwise distinct, and every dedup key occurring
in the trace is covered — i.e. exactly one changes entry per distinct
string dedup key, hence at most one per (file, after-prefix) pair.  (A
repeated pair shares its single entry with any colliding pair.) -/
theorem c2_dedup_by_string_key (sessionId : String) (evs : List REvent) :
    changesOnly (processEvents sessionId [] evs).2
        = (freshDiffs (streamDiffs evs) []).map changesEntry ∧
    ((freshDiffs (streamDiffs evs) []).map diffKeyOf).Nodup ∧
    (∀ k, k ∈ (freshDiffs (streamDiffs evs) []).map diffKeyOf ↔
      k ∈ streamKeys evs) := by
  refine ⟨(processEvents_changes evs sessionId []).1,
    (freshDiffs_keys_spec (streamDiffs evs) []).1, ?_⟩
  intro k
  have h := (freshDiffs_keys_spec (streamDiffs evs) []).2 k
  simpa [streamKeys] using h

set_option maxRecDepth 8192 in
/-- C2 counterexample: the trace `c2Events` contains the diff pair
(file "a:x", after-prefix "hello") twice, yet zero changes-kind entries
for file "a:x" are persisted: the pair's string dedup key "a:x:hello"
collides with the one already consumed by the pair (file "a",
after-prefix "x:hello"), so the claim's "exactly one entry per repeated
(file, after-prefix) pair" fails on the code. -/
theorem c2_counterexample :
    streamDiffs c2Events
      = [⟨"a", "", "x:hello", 1, 1⟩, ⟨"a:x", "", "hello", 1, 1⟩,
         ⟨"a:x", "", "hello", 1, 1⟩] ∧
    ((processEvents "s" [] c2Events).2.filter
        (fun e => e.kind == "session_changes" &&
          entryFile e.meta == some "a:x")).length = 0 := by
  exact ⟨rfl, rfl⟩

end AddAgent
